import Mathlib

/-!
Verification development for the speakleash-forum-tools crawler/scraper.

The Python sources (`forum_engines.py`, `config_manager.py`, `scraper.py`) are
shallowly embedded below: HTML access through BeautifulSoup, `urljoin` and the
`robots.txt` oracle are abstracted as function-valued parameters, Python dicts
become ordered association lists with Python's overwrite-in-place semantics,
and Python exceptions become explicit constructors of result types.
-/

namespace ForumTools

/-! ## Python-level helpers -/

/-- Python's substring test `y in h` over strings, as containment of the code-point
sequence of `y` inside that of `h`. -/
def containsSub (h y : String) : Bool := decide (y.data <:+: h.data)

/-- Python `s.strip()`: remove leading and trailing whitespace, over code points
(`Char.isWhitespace` models Python's whitespace class). Kernel-computable. -/
def pyStrip (s : String) : String :=
  String.mk (((s.data.dropWhile Char.isWhitespace).reverse.dropWhile
    Char.isWhitespace).reverse)

/-- Python dict assignment `d[k] = v`: if the key is present its value is overwritten
in place (the key keeps its position); otherwise the pair is appended at the end. -/
def updOne (d : List (String × String)) (k v : String) : List (String × String) :=
  if d.any (fun p => p.1 == k) then
    d.map (fun p => if p.1 == k then (k, v) else p)
  else d ++ [(k, v)]

/-- Python `dst.update(src)`: assign every pair of `src` into `dst` in order. -/
def dictUpdate (dst src : List (String × String)) : List (String × String) :=
  src.foldl (fun acc p => updOne acc p.1 p.2) dst

/-- The key list of a modelled Python dict. -/
def keysOf (d : List (String × String)) : List String := d.map (·.1)

/-! ## Markup model

BeautifulSoup is an external dependency, so matched markup is abstracted to just
the data the embedded code reads from it. -/

/-- A descendant anchor as returned by `tag.find_all('a')`. `href = none` models an
anchor without an `href` attribute, on which `a_tag['href']` raises `KeyError`. -/
structure Anchor where
  href : Option String
  text : String
  deriving Repr, DecidableEq

/-- An element matched by `soup.find_all(tag, {attr: value})` or `soup.find(...)`.
`truthy` is the Python truth value of the Tag object, `href = none` models a missing
`href` attribute, and `anchors` lists the descendant anchors `find_all('a')`. -/
structure Element where
  truthy : Bool
  href : Option String
  text : String
  anchors : List Anchor
  deriving Repr, DecidableEq

/-! ## `ForumEnginesManager._crawler_search_filter` (forum_engines.py 348-403) -/

/-- Acceptance test applied to one anchor with href `h` (forum_engines.py 374-399):
the whitelist gate, then the blacklist gate, then `robotparser.can_fetch("*", h)`
or the `force_crawl` flag. `can_fetch` is the abstracted permission oracle. -/
def filterAccept (whitelist blacklist : List String) (can_fetch : String → Bool)
    (force_crawl : Bool) (h : String) : Bool :=
  if !whitelist.isEmpty then
    if whitelist.any (fun y => containsSub h y) then
      if !blacklist.isEmpty && blacklist.any (fun y => containsSub h y) then false
      else can_fetch h || force_crawl
    else false
  else
    if !blacklist.isEmpty && blacklist.any (fun y => containsSub h y) then false
    else can_fetch h || force_crawl

/-- Lines 365-370: `try: if tag_solo['href']: a_tags = [tag_solo] / except: a_tags =
tag_solo.find_all('a')`. A missing `href` raises `KeyError`, selecting the descendant
anchors. An empty-string `href` is falsy, so neither branch assigns `a_tags`; the
stale value from the previous iteration is then reprocessed, repeating identical dict
assignments, so the element contributes nothing new — modelled as `none`. -/
def elementATags (el : Element) : Option (List Anchor) :=
  match el.href with
  | some h => if h = "" then none else some [⟨some h, el.text⟩]
  | none => some el.anchors

/-- Lines 372-399 for one element's `a_tags`: each anchor is filtered in order and,
when accepted, recorded under `urljoin(forum_url, href)` with its stripped text.
An anchor without `href` raises `KeyError`, caught by the handler at line 400, which
abandons the remaining anchors of this element. `jn` abstracts `urljoin`. -/
def processATags (jn : String → String → String) (forum_url : String)
    (whitelist blacklist : List String) (can_fetch : String → Bool) (force_crawl : Bool) :
    List (String × String) → List Anchor → List (String × String)
  | d, [] => d
  | d, ⟨none, _⟩ :: _ => d
  | d, ⟨some h, t⟩ :: rest =>
      processATags jn forum_url whitelist blacklist can_fetch force_crawl
        (if filterAccept whitelist blacklist can_fetch force_crawl h then
          updOne d (jn forum_url h) (pyStrip t)
        else d) rest

/-- The outer element loop of `_crawler_search_filter` (forum_engines.py 364-401):
each matched element selects its `a_tags` and runs the anchor loop over them. -/
def crawlerFilterGo (jn : String → String → String) (forum_url : String)
    (whitelist blacklist : List String) (can_fetch : String → Bool) (force_crawl : Bool) :
    List (String × String) → List Element → List (String × String)
  | d, [] => d
  | d, el :: rest =>
      crawlerFilterGo jn forum_url whitelist blacklist can_fetch force_crawl
        (match elementATags el with
        | none => d
        | some ats => processATags jn forum_url whitelist blacklist can_fetch force_crawl d ats)
        rest

/-- `ForumEnginesManager._crawler_search_filter` (forum_engines.py 348-403) over the
matched elements `to_search`, building the result dict left to right. -/
def crawler_search_filter (jn : String → String → String) (forum_url : String)
    (to_search : List Element) (whitelist blacklist : List String)
    (can_fetch : String → Bool) (force_crawl : Bool) : List (String × String) :=
  crawlerFilterGo jn forum_url whitelist blacklist can_fetch force_crawl [] to_search

/-- The anchors of one anchor list that the filter loop actually reaches: everything
before the first anchor lacking an `href` attribute. -/
def takeWithHref : List Anchor → List (String × String)
  | [] => []
  | ⟨none, _⟩ :: _ => []
  | ⟨some h, t⟩ :: rest => (h, t) :: takeWithHref rest

/-- The candidate anchors one element effectively submits to the filter. -/
def effectiveAnchors (el : Element) : List (String × String) :=
  match elementATags el with
  | none => []
  | some ats => takeWithHref ats

/-- A parsed page, abstracted to the BeautifulSoup queries the embedded code issues.
`findLiADivClass c` is `soup.find(['li','a','div'], {'class': {c}})`;
`findAllLiADiv a v` is `soup.find_all(['li','a','div'], {a: v})`;
`findAll t a v` is `soup.find_all(t, {a: v})`; `find t a v` is `soup.find(t, {a: v})`. -/
structure Soup where
  findLiADivClass : String → Option Element
  findAllLiADiv : String → String → List Element
  findAll : String → String → String → List Element
  find : String → String → String → Option Element

/-- Scanner for Python's `str.split(sep)` with non-empty `sep`: cut at each
leftmost non-overlapping occurrence of `sep`. The fuel only bounds the recursion
(any fuel above the input length is exact); it makes the definition structurally
recursive and hence kernel-computable. -/
def splitFuel (sep : List Char) : Nat → List Char → List Char → List (List Char)
  | 0, l, acc => [acc.reverse ++ l]
  | _ + 1, [], acc => [acc.reverse]
  | n + 1, c :: rest, acc =>
      if sep.isPrefixOf (c :: rest) then
        acc.reverse :: splitFuel sep n (List.drop (sep.length - 1) rest) []
      else splitFuel sep n rest (c :: acc)

/-- Python `s.split(sep)` for a non-empty separator. -/
def pySplit (sep s : String) : List String :=
  (splitFuel sep.data (s.data.length + 1) s.data []).map (fun cs => String.mk cs)

/-- Python tuple unpacking `a, b = s.split(sep)`: succeeds only when the split has
exactly two parts, otherwise raises ValueError — modelled as `none`. -/
def split2 (sep s : String) : Option (String × String) :=
  match pySplit sep s with
  | [a, b] => some (a, b)
  | _ => none

/-- Parse of a `"tag >> attr :: value"` rule string as done throughout the source:
`html_tag, x = rule.split(" >> ")` then `attr, value = x.split(" :: ")`. -/
def parseRule (s : String) : Option (String × String × String) :=
  (split2 " >> " s).bind fun p => (split2 " :: " p.2).map fun q => (p.1, q.1, q.2)

/-! ## `ForumEnginesManager._get_next_page_link` (forum_engines.py 292-346) -/

/-- Tier C of a pagination rule (forum_engines.py 317-326): parse
`tag >> attr :: value` and take `find_all(tag, {attr: value})[0]`. A ValueError from
the split or an IndexError from `[0]` reaches the outer handler at line 327, which
continues with the next rule (`none`); a falsy button also continues (line 326). -/
def paginationTierC (soup : Soup) (rule : String) : Option Element :=
  match parseRule rule with
  | some (t, a, v) =>
      match (soup.findAll t a v).head? with
      | some b => if b.truthy then some b else none
      | none => none
  | none => none

/-- Tiers B and C of a pagination rule (forum_engines.py 307-331). Tier B parses
`attr :: value` and takes `find_all(['li','a','div'], {attr: value})[0]`; any
exception there (ValueError from the split, IndexError from `[0]`) falls into tier C.
A falsy tier-B button continues with the next rule (line 316). -/
def paginationTierBC (soup : Soup) (rule : String) : Option Element :=
  match split2 " :: " rule with
  | some (a, v) =>
      match (soup.findAllLiADiv a v).head? with
      | some b => if b.truthy then some b else none
      | none => paginationTierC soup rule
  | none => paginationTierC soup rule

/-- Button lookup for one pagination rule (forum_engines.py 302-331): tier A is
`soup.find(['li','a','div'], {'class': {rule}})`; a missing or falsy tier-A result
(`if not next_button:`) falls through to tiers B and C. -/
def paginationButton (soup : Soup) (rule : String) : Option Element :=
  match soup.findLiADivClass rule with
  | some b => if b.truthy then some b else paginationTierBC soup rule
  | none => paginationTierBC soup rule

/-- Lines 335-338: `try: next_page = next_button['href'] / except: next_page =
next_button.find('a')['href']`. The fallback raises (TypeError or KeyError) when the
button has no descendant anchor or that anchor lacks `href`; this exception is not
caught anywhere in `_get_next_page_link`. -/
def buttonHref (b : Element) : Except Unit String :=
  match b.href with
  | some h => .ok h
  | none =>
      match b.anchors.head? with
      | none => .error ()
      | some a =>
          match a.href with
          | none => .error ()
          | some h => .ok h

/-- One pagination rule attempt (forum_engines.py 302-344). `none` means the loop
continues with the next rule (no button, or the cycle guard `next_page == url_now`
fired at line 340); `some (.ok s)` is `return next_page`; `some (.error ())` is an
exception escaping `_get_next_page_link`. -/
def tryPaginationRule (url_now : String) (soup : Soup) (rule : String) :
    Option (Except Unit String) :=
  match paginationButton soup rule with
  | none => none
  | some b =>
      match buttonHref b with
      | .error _ => some (.error ())
      | .ok next_page => if next_page = url_now then none else some (.ok next_page)

/-- `ForumEnginesManager._get_next_page_link` (forum_engines.py 292-346).
`Except.ok none` models `return False`; `Except.ok (some s)` models `return s`;
`Except.error ()` models an uncaught exception from the href fallback. -/
def get_next_page_link (url_now : String) (soup : Soup) (pagination : List String) :
    Except Unit (Option String) :=
  match pagination with
  | [] => .ok none
  | rule :: rest =>
      match tryPaginationRule url_now soup rule with
      | none => get_next_page_link url_now soup rest
      | some (.ok s) => .ok (some s)
      | some (.error _) => .error ()

/-! ## Root permission gate (config_manager.py 333-338) -/

/-- Python's builtin `exit()` called with no argument raises `SystemExit(None)`, on
which the interpreter terminates with exit status 0. -/
def pythonExitStatus : Nat := 0

/-- Outcome of the startup permission check. -/
inductive StartupOutcome where
  | aborted (exitCode : Nat)
  | proceeds
  deriving Repr, DecidableEq

/-- The root-permission gate of `ConfigManager._check_robots_txt`
(config_manager.py 333-338): `if not rp.can_fetch("*", urlparse(DATASET_URL).path)
and force_crawl == False: ... exit()`. `can_fetch_root` abstracts the oracle's
verdict on the configured root URL's path. -/
def check_robots_gate (can_fetch_root : Bool) (force_crawl : Bool) : StartupOutcome :=
  if !can_fetch_root && force_crawl == false then .aborted pythonExitStatus
  else .proceeds

/-! ## Topic-map accessors (forum_engines.py 406-413) -/

/-- `ForumEnginesManager.get_topics_list`. -/
def get_topics_list (threads_topics : List (String × String)) : List (List String) :=
  threads_topics.map fun p => [p.1, p.2]

/-- `ForumEnginesManager.get_topics_urls_only`. -/
def get_topics_urls_only (threads_topics : List (String × String)) : List String :=
  threads_topics.map (·.1)

/-- `ForumEnginesManager.get_topics_titles_only`. -/
def get_topics_titles_only (threads_topics : List (String × String)) : List String :=
  threads_topics.map (·.2)

/-! ## Engine profiles and `check_engine_content` (forum_engines.py 86-139, 416-489) -/

/-- The per-engine rule lists held by the crawler classes of forum_engines.py. -/
structure EngineProfile where
  threads_class : List String
  threads_whitelist : List String
  threads_blacklist : List String
  topics_class : List String
  topics_whitelist : List String
  topics_blacklist : List String
  pagination : List String
  topic_title_class : List String
  content_class : List String
  deriving Repr, DecidableEq

/-- `InvisionCrawler.__init__` (forum_engines.py 416-429). -/
def InvisionCrawler : EngineProfile where
  threads_class := ["div >> class :: ipsDataItem_main"]
  topics_class := ["div >> class :: ipsDataItem_main"]
  threads_whitelist := ["forum"]
  threads_blacklist := ["topic"]
  topics_whitelist := ["topic"]
  topics_blacklist := ["page", "#comments"]
  pagination := ["ipsPagination_next"]
  topic_title_class := []
  content_class := ["ipsType_normal ipsType_richText ipsPadding_bottom ipsContained"]

/-- `PhpBBCrawler.__init__` (forum_engines.py 431-444). -/
def PhpBBCrawler : EngineProfile where
  threads_class := ["a >> class :: forumtitle", "a >> class :: forumlink"]
  topics_class := ["a >> class :: topictitle"]
  threads_whitelist := []
  threads_blacklist := []
  topics_whitelist := []
  topics_blacklist := []
  pagination := ["arrow next", "right-box right", "title :: Dalej", "pag-img"]
  topic_title_class := ["h2 >>  :: ", "h2 >> class :: topic-title"]
  content_class := ["content_class"]

/-- `IPBoardCrawler.__init__` (forum_engines.py 446-459). -/
def IPBoardCrawler : EngineProfile where
  threads_class := ["td >> class :: col_c_forum"]
  topics_class := ["a >> class :: topic_title"]
  threads_whitelist := []
  threads_blacklist := []
  topics_whitelist := []
  topics_blacklist := []
  pagination := ["next"]
  topic_title_class := []
  content_class := ["post entry-content_class"]

/-- `XenForoCrawler.__init__` (forum_engines.py 461-474). -/
def XenForoCrawler : EngineProfile where
  threads_class := ["h3 >> class :: node-title"]
  topics_class := ["div >> class :: structItem-title"]
  threads_whitelist := []
  threads_blacklist := ["prefix_id"]
  topics_whitelist := ["threads"]
  topics_blacklist := ["preview"]
  pagination := ["pageNav-jump pageNav-jump--next"]
  topic_title_class := []
  content_class := ["message-body js-selectToQuote"]

/-- `UnsupportedCrawler.__init__` (forum_engines.py 476-489): every list empty. -/
def UnsupportedCrawler : EngineProfile where
  threads_class := []
  topics_class := []
  threads_whitelist := []
  threads_blacklist := []
  topics_whitelist := []
  topics_blacklist := []
  pagination := []
  topic_title_class := []
  content_class := []

/-- Engine dispatch of `check_engine_content` (forum_engines.py 94-108): an unknown
engine id raises ValueError, which is caught and only logged, leaving `engine_type`
unbound so the attribute reads at lines 110-118 raise NameError — modelled by
`none`. -/
def engineDefaults : String → Option EngineProfile
  | "invision" => some InvisionCrawler
  | "phpbb" => some PhpBBCrawler
  | "ipboard" => some IPBoardCrawler
  | "xenforo" => some XenForoCrawler
  | "other" => some UnsupportedCrawler
  | _ => none

/-- The user override settings consumed by `check_engine_content` (the
`THREADS_CLASS` ... `CONTENT_CLASS` and `TOPIC_TITLE_CLASS` entries of
`ConfigManager.settings`), restricted to well-formed list values. -/
structure OverrideSettings where
  threads_class : List String
  threads_whitelist : List String
  threads_blacklist : List String
  topics_class : List String
  topics_whitelist : List String
  topics_blacklist : List String
  pagination : List String
  topic_title_class : List String
  content_class : List String
  deriving Repr, DecidableEq

/-- Empty override settings. -/
def noOverrides : OverrideSettings :=
  ⟨[], [], [], [], [], [], [], [], []⟩

/-- One merge step of `check_engine_content` (lines 121-136): `if settings[X] and
isinstance(settings[X], list): default.extend(settings[X])`. An empty list is falsy,
so nothing is extended (which equals appending nothing). -/
def extendIf (dflt ov : List String) : List String :=
  if !ov.isEmpty then dflt ++ ov else dflt

/-- `ForumEnginesManager.check_engine_content` (forum_engines.py 86-139) for
list-valued settings: selects the engine defaults, then extends eight of the nine
categories with the matching override. The source never extends
`topic_title_class` with `settings['TOPIC_TITLE_CLASS']`. -/
def check_engine_content (engine_type : String) (s : OverrideSettings) :
    Option EngineProfile :=
  (engineDefaults engine_type).map fun d =>
    { threads_class := extendIf d.threads_class s.threads_class
      threads_whitelist := extendIf d.threads_whitelist s.threads_whitelist
      threads_blacklist := extendIf d.threads_blacklist s.threads_blacklist
      topics_class := extendIf d.topics_class s.topics_class
      topics_whitelist := extendIf d.topics_whitelist s.topics_whitelist
      topics_blacklist := extendIf d.topics_blacklist s.topics_blacklist
      pagination := extendIf d.pagination s.pagination
      topic_title_class := d.topic_title_class
      content_class := extendIf d.content_class s.content_class }

/-! ## Scraper worker (scraper.py)

The worker session `session.get` is abstracted as a deterministic `fetch` function;
parsing with BeautifulSoup is modelled as total, the parsed `Soup` arriving with the
fetch outcome. -/

/-- Outcome of `session.get(url)` inside a worker: the request raises, or a response
arrives carrying `response.ok`, `len(response.content)` and its parsed soup. -/
inductive FetchOut where
  | raised
  | resp (ok : Bool) (contentLen : Nat) (soup : Soup)

/-- The content-class scan (scraper.py 150-155 and 206-211): for each rule, parse
`tag >> attr :: value`, bind `comment_blocks = soup.find_all(tag, {attr: value})`,
and break on a non-empty result. `acc` is the current binding of `comment_blocks`
(`none` = unbound). A malformed rule raises ValueError out of the `for`; the result's
second component records whether that happened (the binding is kept either way). -/
def contentScanE (soup : Soup) : List String → Option (List Element) →
    Option (List Element) × Bool
  | [], acc => (acc, false)
  | r :: rest, acc =>
      match parseRule r with
      | none => (acc, true)
      | some (t, a, v) =>
          let blocks := soup.findAll t a v
          if !blocks.isEmpty then (some blocks, false) else contentScanE soup rest (some blocks)

/-- A Python value bound to the local `topic_title` of `_get_item_text`: the initial
empty string, a `soup.find` result (`None` or a Tag), or the post-processed text. -/
inductive TitleVal where
  | str (s : String)
  | pynone
  | tag (t : Element)
  deriving Repr, DecidableEq

/-- Python truthiness of a `topic_title` binding: a string is truthy when non-empty,
`None` is falsy, a Tag has its object truth value. -/
def titleTruthy : TitleVal → Bool
  | .str s => !(s == "")
  | .pynone => false
  | .tag t => t.truthy

/-- The title-rule loop (scraper.py 170-175): rebinds `topic_title` to each
`soup.find` result, breaking on a truthy one. A malformed rule raises ValueError
(second component `true`), caught by the handler at line 184 with the binding kept. -/
def titleScan (soup : Soup) : List String → TitleVal → TitleVal × Bool
  | [], tv => (tv, false)
  | r :: rest, tv =>
      match parseRule r with
      | none => (tv, true)
      | some (t, a, v) =>
          match soup.find t a v with
          | none => titleScan soup rest .pynone
          | some tg => if tg.truthy then (.tag tg, false) else titleScan soup rest (.tag tg)


/-- Title post-processing (scraper.py 177-182): `if topic_title: topic_title =
topic_title.text.strip()` then `if not topic_title: topic_title = ""`. The truthy
string case is unreachable from the scan (its only string binding is the falsy
initial `''`) and is kept unchanged. -/
def titlePost (tv : TitleVal) : TitleVal :=
  if titleTruthy tv then
    match tv with
    | .tag t => if pyStrip t.text == "" then .str "" else .str (pyStrip t.text)
    | x => x
  else .str ""

/-- The whole title block of `_get_item_text` (scraper.py 168-185): run the scan
from the initial binding `''`; when it raised, the caught handler leaves the binding
as is and the post-processing is skipped. -/
def titleSection (soup : Soup) (title_class : List String) : TitleVal :=
  match titleScan soup title_class (.str "") with
  | (tv, true) => tv
  | (tv, false) => titlePost tv

/-- Outcome of the next-pages loop of `_get_item_text` (scraper.py 192-226).
`done` is normal completion, including an exception swallowed by the handler at
line 225 while `next_page_link` was bound; `unboundLocal` is that handler itself
raising UnboundLocalError because `next_page_link` was never assigned; `fuelOut`
marks exhausted modelling fuel. -/
inductive PagesLoopOut where
  | done (text : String)
  | unboundLocal
  | fuelOut

/-- The next-pages loop of `_get_item_text` (scraper.py 192-226). Arguments after
the fuel: the current `url`, `soup`, accumulated `text`, the current binding of
`comment_blocks` (always bound on entry), and the binding of `next_page_link`
(`none` = unbound). The loop resolves the next link with
`ForumEnginesManager._get_next_page_link`, checks `DATASET_URL in next_page_link`
on the raw href, fetches the raw href (not the joined url), rebinds
`comment_blocks` and appends their stripped text. -/
def scraperPagesLoop (fetch : String → FetchOut) (content_class pagination : List String)
    (sep DATASET_URL : String) (jn : String → String → String) :
    Nat → String → Soup → String → List Element → Option String → PagesLoopOut
  | 0, _, _, _, _, _ => .fuelOut
  | Nat.succ fuel, url, soup, text, blocks, npl =>
      match get_next_page_link url soup pagination with
      | .error _ =>
          match npl with
          | none => .unboundLocal
          | some _ => .done text
      | .ok none => .done text
      | .ok (some s) =>
          if s == "" then .done text
          else
            let url' := jn DATASET_URL s
            if url' != "" && containsSub s DATASET_URL then
              match fetch s with
              | .raised => .done text
              | .resp _ _ soup' =>
                  match contentScanE soup' content_class (some blocks) with
                  | (_, true) => .done text
                  | (acc, false) =>
                      let blocks' := acc.getD blocks
                      let text' := blocks'.foldl (fun t c => t ++ pyStrip c.text ++ sep) text
                      scraperPagesLoop fetch content_class pagination sep DATASET_URL jn
                        fuel url' soup' text' blocks' (some s)
            else .done text

/-- Result of `Scraper._get_item_text`: `pair` is the annotated `return text,
topic_title`; `single` is the bare `return text` at line 145 (the 15 MB branch),
which returns a plain string instead of the annotated tuple; `raised` is an
uncaught exception escaping the function. -/
inductive GetItemTextOut where
  | pair (text : String) (title : TitleVal)
  | single (text : String)
  | raised
  | fuelOut

/-- `Scraper._get_item_text` (scraper.py 112-236). A failed request is caught at
line 136 and the `elif` chain returns `('', '')`; an `ok` response over 15,000,000
bytes takes the bare `return text` at line 145; otherwise the content scan must
have bound `comment_blocks`, else the loop at line 164 raises NameError
(uncaught). -/
def get_item_text (fetch : String → FetchOut)
    (content_class title_class pagination : List String)
    (sep DATASET_URL : String) (jn : String → String → String) (fuel : Nat)
    (url : String) : GetItemTextOut :=
  match fetch url with
  | .raised => .pair "" (.str "")
  | .resp ok clen soup =>
      if ok then
        if clen > 15000000 then .single ""
        else
          match (contentScanE soup content_class none).1 with
          | none => .raised
          | some blocks =>
              let text := blocks.foldl (fun t c => t ++ pyStrip c.text ++ sep) ""
              let title := titleSection soup title_class
              match scraperPagesLoop fetch content_class pagination sep DATASET_URL jn
                  fuel url soup text blocks none with
              | .done t => .pair t title
              | .unboundLocal => .raised
              | .fuelOut => .fuelOut
      else .pair "" (.str "")

/-- The metadata dict built by `_process_item` (all its return paths set `url` and
`topic_title`; `skip` and `characters` are present only on the matching paths). -/
structure Meta where
  url : String
  topic_title : TitleVal
  skip : Option String
  characters : Option Nat
  deriving Repr, DecidableEq

/-- Result of `Scraper._process_item`: the returned `(txt_strip, meta)` pair, or an
exception escaping the work unit into the multiprocessing pool. -/
inductive ProcessItemOut where
  | ok (txt : String) (meta : Meta)
  | raised
  | fuelOut
  deriving Repr

/-- `Scraper._process_item` (scraper.py 238-279). On the unvisited path, the tuple
unpacking `txt, topic_title = Scraper._get_item_text(url)` either succeeds, or (for
the bare-string return of the 15 MB branch) binds two characters exactly when the
string has length two and otherwise raises ValueError; every exception is caught at
line 266, but the handler at line 268 — like the visited branch at line 271 —
reads the local `topic_title`, which was never assigned on those paths, so
UnboundLocalError escapes the work unit. -/
def process_item (all_visited_urls : List String) (fetch : String → FetchOut)
    (content_class title_class pagination : List String)
    (sep DATASET_URL : String) (jn : String → String → String) (fuel : Nat)
    (url : String) : ProcessItemOut :=
  if !(all_visited_urls.contains url) then
    match get_item_text fetch content_class title_class pagination sep DATASET_URL jn fuel url with
    | .pair txt title =>
        if txt != "" then
          .ok (pyStrip txt) ⟨url, title, none, some (pyStrip txt).length⟩
        else
          .ok "" ⟨url, title, some "error", none⟩
    | .single t =>
        match t.data with
        | [c1, c2] =>
            let txt := String.mk [c1]
            if txt != "" then
              .ok (pyStrip txt) ⟨url, .str (String.mk [c2]), none, some (pyStrip txt).length⟩
            else
              .ok "" ⟨url, .str (String.mk [c2]), some "error", none⟩
        | _ => .raised
    | .raised => .raised
    | .fuelOut => .fuelOut
  else .raised

/-! ## Coordinator loop body (scraper.py 337-362) -/

/-- One row of the visited-URLs dataframe
(columns `Topic_URLs, Topic_Titles, Visited_flag, Skip_flag`). -/
structure VisitRecord where
  topic_url : String
  topic_title : TitleVal
  visited_flag : Nat
  skip_flag : Nat
  deriving Repr, DecidableEq

/-- Coordinator state threaded through the result-consumption loop of
`_scrap_txt_mp`. `archive` lists the `ar.add_data` calls, `records` the rows
appended to the visited-URLs dataframe. -/
structure CoordState where
  total_docs : Nat
  added : Nat
  skipped : Nat
  total : Nat
  archive : List (String × Meta)
  records : List VisitRecord
  deriving Repr, DecidableEq

/-- The title defaulting of the accept branch (scraper.py 344-345): `if not
meta["topic_title"]: meta.update({"topic_title": "x"})`. -/
def coordMeta (meta : Meta) : Meta :=
  if titleTruthy meta.topic_title then meta else { meta with topic_title := .str "x" }

/-- One iteration of the result-consumption loop of `Scraper._scrap_txt_mp`
(scraper.py 337-362) on a worker result `(txt, meta)`: accept when `txt` is truthy
and `len(txt) > MIN_LEN_TXT` (archive append and a `Visited_flag = 1` row, after
defaulting a falsy title to `"x"`); otherwise count a skip and append a
`Skip_flag = 1` row unless `meta.get('skip') == 'visited'`. -/
def coordinatorStep (min_len_txt : Nat) (st : CoordState) (txt : String) (meta : Meta) :
    CoordState :=
  let st1 := { st with total := st.total + 1 }
  if txt != "" && decide (txt.length > min_len_txt) then
    let meta' := coordMeta meta
    { st1 with
      total_docs := st1.total_docs + 1
      added := st1.added + 1
      archive := st1.archive ++ [(txt, meta')]
      records := st1.records ++ [⟨meta'.url, meta'.topic_title, 1, 0⟩] }
  else
    let st2 := { st1 with skipped := st1.skipped + 1 }
    if meta.skip != some "visited" then
      { st2 with records := st2.records ++ [⟨meta.url, meta.topic_title, 0, 1⟩] }
    else st2

/-! ## Discovery crawl (`ForumEnginesManager.crawl_forum`, forum_engines.py 142-289)

The network is abstracted as a total map `pages` from url to parsed soup; requests
and the BeautifulSoup constructor are modelled as non-failing (an HTTP failure only
adds one more route to the `crawl_forum` handler already modelled through rule
exceptions). -/

/-- The slice of a `ForumEnginesManager` the discovery phase reads: merged rule
lists, forum url, permission oracle, force flag, and the abstracted `urljoin`. -/
structure CrawlConfig where
  profile : EngineProfile
  forum_url : String
  can_fetch : String -> Bool
  force_crawl : Bool
  jn : String -> String -> String

/-- The rule loop of `_get_forum_threads_extract` (forum_engines.py 205-219): per
threads rule, split `tag >> attr :: value` (a malformed rule raises ValueError,
uncaught here), run `soup.find_all`, filter with `_crawler_search_filter`, update
the dict. -/
def threadsRulesLoop (cfg : CrawlConfig) (soup : Soup) :
    List String -> List (String × String) -> Except Unit (List (String × String))
  | [], d => .ok d
  | r :: rest, d =>
      match parseRule r with
      | none => .error ()
      | some (t, a, v) =>
          let found := crawler_search_filter cfg.jn cfg.forum_url (soup.findAll t a v)
            cfg.profile.threads_whitelist cfg.profile.threads_blacklist
            cfg.can_fetch cfg.force_crawl
          threadsRulesLoop cfg soup rest (dictUpdate d found)

/-- `ForumEnginesManager._get_forum_threads_extract` (forum_engines.py 195-221). -/
def get_forum_threads_extract (cfg : CrawlConfig) (soup : Soup) :
    Except Unit (List (String × String)) :=
  threadsRulesLoop cfg soup cfg.profile.threads_class []

/-- The rule loop of `_get_thread_topics_extract` (forum_engines.py 269-285): per
topics rule, a raw `find_all`; zero raw matches trigger the fallback, extracting
threads from the same soup and appending that dict to `self.forum_threads`
(collected in `apps`); otherwise the filtered topics update the dict. -/
def topicsRulesLoop (cfg : CrawlConfig) (soup : Soup) :
    List String -> List (String × String) -> List (List (String × String)) ->
    Except Unit (List (String × String) × List (List (String × String)))
  | [], d, apps => .ok (d, apps)
  | r :: rest, d, apps =>
      match parseRule r with
      | none => .error ()
      | some (t, a, v) =>
          let raw := soup.findAll t a v
          if raw.isEmpty then
            match get_forum_threads_extract cfg soup with
            | .error _ => .error ()
            | .ok fd => topicsRulesLoop cfg soup rest d (apps ++ [fd])
          else
            let found := crawler_search_filter cfg.jn cfg.forum_url raw
              cfg.profile.topics_whitelist cfg.profile.topics_blacklist
              cfg.can_fetch cfg.force_crawl
            topicsRulesLoop cfg soup rest (dictUpdate d found) apps

/-- `ForumEnginesManager._get_thread_topics_extract` (forum_engines.py 259-289):
returns the topics dict and the fallback thread dicts appended while scanning. -/
def get_thread_topics_extract (cfg : CrawlConfig) (soup : Soup) :
    Except Unit (List (String × String) × List (List (String × String))) :=
  topicsRulesLoop cfg soup cfg.profile.topics_class [] []

/-- Result of a discovery step: `exc` is a Python exception propagating to the
handler of `crawl_forum` at line 174; `fuelOut` marks exhausted modelling fuel. -/
inductive CrawlRes (α : Type) where
  | ok (a : α)
  | exc
  | fuelOut
  deriving Repr, DecidableEq

/-- The pagination loop of `_get_thread_topics` (forum_engines.py 242-254): while a
truthy next link resolves, join it against `forum_url`; when the joined url is
truthy and contains `forum_url`, fetch it and merge its extracted topics, keeping
the fallback thread dicts; otherwise break. -/
def threadPagesLoop (cfg : CrawlConfig) (pages : String -> Soup) :
    Nat -> String -> Soup -> List (String × String) -> List (List (String × String)) ->
    CrawlRes (List (String × String) × List (List (String × String)))
  | 0, _, _, _, _ => .fuelOut
  | Nat.succ fuel, url_now, soup, topics, apps =>
      match get_next_page_link url_now soup cfg.profile.pagination with
      | .error _ => .exc
      | .ok none => .ok (topics, apps)
      | .ok (some s) =>
          if s == "" then .ok (topics, apps)
          else
            let url' := cfg.jn cfg.forum_url s
            if url' != "" && containsSub url' cfg.forum_url then
              let soup' := pages url'
              match get_thread_topics_extract cfg soup' with
              | .error _ => .exc
              | .ok (tps, apps') =>
                  threadPagesLoop cfg pages fuel url' soup'
                    (dictUpdate topics tps) (apps ++ apps')
            else .ok (topics, apps)

/-- `ForumEnginesManager._get_thread_topics` (forum_engines.py 224-256): extract
the topics of the page at `url_now`, then follow its pagination chain. -/
def get_thread_topics (cfg : CrawlConfig) (pages : String -> Soup) (fuel : Nat)
    (url_now : String) :
    CrawlRes (List (String × String) × List (List (String × String))) :=
  let soup := pages url_now
  match get_thread_topics_extract cfg soup with
  | .error _ => .exc
  | .ok (topics, apps) => threadPagesLoop cfg pages fuel url_now soup topics apps

/-- The main loop of `crawl_forum` (forum_engines.py 157-163): `self.forum_threads`
is a list of dicts iterated while it grows, modelled by its flattening into a FIFO
queue of `(url, name)` items; the fallback dicts discovered while expanding an item
are appended behind everything currently queued, exactly where `list.append` puts
them relative to the dicts not yet iterated. An exception is caught at line 174 and
yields `False` with the topics accumulated so far. -/
def crawlLoop (cfg : CrawlConfig) (pages : String -> Soup) (fuelPag : Nat) :
    Nat -> List (String × String) -> List (String × String) ->
    CrawlRes (Bool × List (String × String))
  | _, [], topics => .ok (!topics.isEmpty, topics)
  | 0, _ :: _, _ => .fuelOut
  | Nat.succ fuel, (url, _) :: rest, topics =>
      match get_thread_topics cfg pages fuelPag url with
      | .exc => .ok (false, topics)
      | .fuelOut => .fuelOut
      | .ok (tps, apps) =>
          crawlLoop cfg pages fuelPag fuel (rest ++ apps.flatten) (dictUpdate topics tps)

/-- `ForumEnginesManager.crawl_forum` (forum_engines.py 142-178): thread-extract the
root page, then run the queue; `.ok (flag, topics)` carries the returned boolean and
the final `threads_topics`. -/
def crawl_forum (cfg : CrawlConfig) (pages : String -> Soup) (fuelPag fuel : Nat) :
    CrawlRes (Bool × List (String × String)) :=
  match get_forum_threads_extract cfg (pages cfg.forum_url) with
  | .error _ => .ok (false, [])
  | .ok rootDict => crawlLoop cfg pages fuelPag fuel rootDict []

/-- The root page's thread dict (empty when its extraction raises). -/
def rootThreads (cfg : CrawlConfig) (pages : String -> Soup) : List (String × String) :=
  match get_forum_threads_extract cfg (pages cfg.forum_url) with
  | .ok d => d
  | .error _ => []

/-- The queue items that expanding `url` appends (the flattening of its fallback
thread dicts), when the expansion succeeds. -/
def enqueuedItems (cfg : CrawlConfig) (pages : String -> Soup) (fuelPag : Nat)
    (url : String) : List (String × String) :=
  match get_thread_topics cfg pages fuelPag url with
  | .ok (_, apps) => apps.flatten
  | _ => []

/-- The topics dict collected by expanding `url`, pagination chain included. -/
def collectedTopics (cfg : CrawlConfig) (pages : String -> Soup) (fuelPag : Nat)
    (url : String) : List (String × String) :=
  match get_thread_topics cfg pages fuelPag url with
  | .ok (tps, _) => tps
  | _ => []

/-- Urls reachable from a starting queue by repeatedly following the items an
expansion enqueues. -/
inductive ReachFrom (cfg : CrawlConfig) (pages : String -> Soup) (fuelPag : Nat)
    (q : List (String × String)) : String -> Prop where
  | base (url t : String) (h : (url, t) ∈ q) : ReachFrom cfg pages fuelPag q url
  | step (u url t : String) (hu : ReachFrom cfg pages fuelPag q u)
      (h : (url, t) ∈ enqueuedItems cfg pages fuelPag u) :
      ReachFrom cfg pages fuelPag q url

/-- The urls the discovery loop expands: the root page's thread links, closed under
the items enqueued by the zero-topic fallback. -/
def Expanded (cfg : CrawlConfig) (pages : String -> Soup) (fuelPag : Nat)
    (u : String) : Prop :=
  ReachFrom cfg pages fuelPag (rootThreads cfg pages) u

/-- Modelled from the spec words of claim C2, for comparison with the crawl: the
per-page topic links are the urls accepted by the filter over every topics rule of
the page (parse failures yield no links). -/
def specTopicLinks (cfg : CrawlConfig) (pages : String -> Soup) (u : String) :
    List String :=
  cfg.profile.topics_class.flatMap fun r =>
    match parseRule r with
    | none => []
    | some (t, a, v) =>
        keysOf (crawler_search_filter cfg.jn cfg.forum_url ((pages u).findAll t a v)
          cfg.profile.topics_whitelist cfg.profile.topics_blacklist
          cfg.can_fetch cfg.force_crawl)

/-- Modelled from the spec words of claim C2: the per-page thread links are the
urls accepted by the filter over every threads rule of the page. -/
def specThreadLinks (cfg : CrawlConfig) (pages : String -> Soup) (u : String) :
    List String :=
  cfg.profile.threads_class.flatMap fun r =>
    match parseRule r with
    | none => []
    | some (t, a, v) =>
        keysOf (crawler_search_filter cfg.jn cfg.forum_url ((pages u).findAll t a v)
          cfg.profile.threads_whitelist cfg.profile.threads_blacklist
          cfg.can_fetch cfg.force_crawl)

/-- Modelled from the spec words of claim C2: pages reachable from the root by
repeatedly following thread links. -/
inductive SpecThreadReach (cfg : CrawlConfig) (pages : String -> Soup) :
    String -> Prop where
  | root (u : String) (h : u ∈ specThreadLinks cfg pages cfg.forum_url) :
      SpecThreadReach cfg pages u
  | step (u v : String) (hu : SpecThreadReach cfg pages u)
      (h : v ∈ specThreadLinks cfg pages u) : SpecThreadReach cfg pages v

/-- Modelled from the spec words of claim C2: the urls reachable via topic rules
from pages reachable via thread rules from the root. -/
def SpecTopicSet (cfg : CrawlConfig) (pages : String -> Soup) (k : String) : Prop :=
  ∃ u, SpecThreadReach cfg pages u ∧ k ∈ specTopicLinks cfg pages u

/-! ## Dict lemmas -/

/-- A key is in the dict after `updOne d k' v` iff it was there before or is `k'`. -/
theorem mem_keys_updOne (d : List (String × String)) (k' v k : String) :
    k ∈ keysOf (updOne d k' v) ↔ k ∈ keysOf d ∨ k = k' := by
  unfold updOne keysOf
  by_cases hmem : d.any (fun p => p.1 == k') = true
  · rw [if_pos hmem]
    have hkeys : (d.map (fun p => if p.1 == k' then (k', v) else p)).map Prod.fst
        = d.map Prod.fst := by
      rw [List.map_map]
      refine List.map_congr_left ?_
      intro p _
      by_cases hp : p.1 == k'
      · simp only [Function.comp_apply, hp, if_pos]
        exact (eq_of_beq hp).symm
      · simp only [Function.comp_apply, hp]
        rfl
    rw [hkeys]
    constructor
    · exact Or.inl
    · rintro (h | rfl)
      · exact h
      · rcases List.any_eq_true.1 hmem with ⟨p, hp, hpk⟩
        exact List.mem_map.2 ⟨p, hp, eq_of_beq hpk⟩
  · rw [if_neg hmem]
    simp [List.mem_append]

/-- A key is in `dictUpdate dst src` iff it is in `dst` or in `src`. -/
theorem mem_keys_dictUpdate (src : List (String × String)) :
    ∀ (dst : List (String × String)) (k : String),
    k ∈ keysOf (dictUpdate dst src) ↔ k ∈ keysOf dst ∨ k ∈ keysOf src := by
  induction src with
  | nil => intro dst k; simp [dictUpdate, keysOf]
  | cons p rest ih =>
      intro dst k
      have hstep : dictUpdate dst (p :: rest) = dictUpdate (updOne dst p.1 p.2) rest := rfl
      rw [hstep, ih, mem_keys_updOne]
      simp only [keysOf, List.map_cons, List.mem_cons]
      tauto

/-! ## Claim C1: membership in the filter result -/

/-- Membership characterization of the anchor loop. -/
theorem mem_keys_processATags (jn : String → String → String) (forum_url : String)
    (wl bl : List String) (cf : String → Bool) (fc : Bool) (k : String) :
    ∀ (ats : List Anchor) (d : List (String × String)),
    k ∈ keysOf (processATags jn forum_url wl bl cf fc d ats) ↔
      k ∈ keysOf d ∨ ∃ h t, (h, t) ∈ takeWithHref ats ∧
        filterAccept wl bl cf fc h = true ∧ jn forum_url h = k := by
  intro ats
  induction ats with
  | nil => intro d; simp [processATags, takeWithHref]
  | cons a rest ih =>
      intro d
      obtain ⟨href, t⟩ := a
      cases href with
      | none => simp [processATags, takeWithHref]
      | some h =>
          by_cases hacc : filterAccept wl bl cf fc h = true
          · rw [show processATags jn forum_url wl bl cf fc d (⟨some h, t⟩ :: rest)
                = processATags jn forum_url wl bl cf fc
                    (updOne d (jn forum_url h) (pyStrip t)) rest by
              simp [processATags, hacc]]
            rw [ih, mem_keys_updOne]
            simp only [takeWithHref, List.mem_cons]
            constructor
            · rintro ((hd | rfl) | ⟨h', t', hmem, ha', hj'⟩)
              · exact Or.inl hd
              · exact Or.inr ⟨h, t, Or.inl rfl, hacc, rfl⟩
              · exact Or.inr ⟨h', t', Or.inr hmem, ha', hj'⟩
            · rintro (hd | ⟨h', t', hmem | hmem, ha', hj'⟩)
              · exact Or.inl (Or.inl hd)
              · cases hmem
                exact Or.inl (Or.inr hj'.symm)
              · exact Or.inr ⟨h', t', hmem, ha', hj'⟩
          · rw [show processATags jn forum_url wl bl cf fc d (⟨some h, t⟩ :: rest)
                = processATags jn forum_url wl bl cf fc d rest by
              simp [processATags, hacc]]
            rw [ih]
            simp only [takeWithHref, List.mem_cons]
            constructor
            · rintro (hd | ⟨h', t', hmem, ha', hj'⟩)
              · exact Or.inl hd
              · exact Or.inr ⟨h', t', Or.inr hmem, ha', hj'⟩
            · rintro (hd | ⟨h', t', hmem | hmem, ha', hj'⟩)
              · exact Or.inl hd
              · cases hmem
                exact absurd ha' hacc
              · exact Or.inr ⟨h', t', hmem, ha', hj'⟩

/-- Membership characterization of the element loop. -/
theorem mem_keys_crawlerFilterGo (jn : String → String → String) (forum_url : String)
    (wl bl : List String) (cf : String → Bool) (fc : Bool) (k : String) :
    ∀ (els : List Element) (d : List (String × String)),
    k ∈ keysOf (crawlerFilterGo jn forum_url wl bl cf fc d els) ↔
      k ∈ keysOf d ∨ ∃ h t, (h, t) ∈ els.flatMap effectiveAnchors ∧
        filterAccept wl bl cf fc h = true ∧ jn forum_url h = k := by
  intro els
  induction els with
  | nil => intro d; simp [crawlerFilterGo]
  | cons el rest ih =>
      intro d
      rw [show crawlerFilterGo jn forum_url wl bl cf fc d (el :: rest)
          = crawlerFilterGo jn forum_url wl bl cf fc
              (match elementATags el with
              | none => d
              | some ats => processATags jn forum_url wl bl cf fc d ats) rest from rfl]
      rw [ih]
      have heff : ∀ (h t : String), ((h, t) ∈ (el :: rest).flatMap effectiveAnchors)
          ↔ ((h, t) ∈ effectiveAnchors el ∨ (h, t) ∈ rest.flatMap effectiveAnchors) := by
        intro h t; simp [List.flatMap_cons]
      cases hel : elementATags el with
      | none =>
          simp only [hel]
          have : effectiveAnchors el = [] := by simp [effectiveAnchors, hel]
          constructor
          · rintro (hd | ⟨h', t', hmem, ha', hj'⟩)
            · exact Or.inl hd
            · exact Or.inr ⟨h', t', (heff h' t').2 (Or.inr hmem), ha', hj'⟩
          · rintro (hd | ⟨h', t', hmem, ha', hj'⟩)
            · exact Or.inl hd
            · rcases (heff h' t').1 hmem with hm | hm
              · rw [this] at hm; cases hm
              · exact Or.inr ⟨h', t', hm, ha', hj'⟩
      | some ats =>
          simp only [hel]
          rw [mem_keys_processATags]
          have heA : effectiveAnchors el = takeWithHref ats := by
            simp [effectiveAnchors, hel]
          constructor
          · rintro ((hd | ⟨h', t', hmem, ha', hj'⟩) | ⟨h', t', hmem, ha', hj'⟩)
            · exact Or.inl hd
            · exact Or.inr ⟨h', t', (heff h' t').2 (Or.inl (heA ▸ hmem)), ha', hj'⟩
            · exact Or.inr ⟨h', t', (heff h' t').2 (Or.inr hmem), ha', hj'⟩
          · rintro (hd | ⟨h', t', hmem, ha', hj'⟩)
            · exact Or.inl (Or.inl hd)
            · rcases (heff h' t').1 hmem with hm | hm
              · exact Or.inl (Or.inr ⟨h', t', heA ▸ hm, ha', hj'⟩)
              · exact Or.inr ⟨h', t', hm, ha', hj'⟩

/-- C1 (amended): for every candidate anchor the filter loop actually processes —
a top-level matched anchor with a non-empty href, or a descendant anchor of a
non-anchor matched element not preceded in that element by an anchor lacking
`href` — a record keyed by its absolutized URL is in the result of
`_crawler_search_filter` iff (the whitelist is empty OR the href contains a
whitelist substring) AND NOT (the href contains a blacklist substring, given it
passed the whitelist) AND (`can_fetch` allows the href OR `force_crawl` is set);
and no other keys occur. -/
theorem crawler_filter_record_iff (jn : String → String → String) (forum_url : String)
    (to_search : List Element) (whitelist blacklist : List String)
    (can_fetch : String → Bool) (force_crawl : Bool) (k : String) :
    k ∈ keysOf (crawler_search_filter jn forum_url to_search whitelist blacklist
        can_fetch force_crawl) ↔
      ∃ h t, (h, t) ∈ to_search.flatMap effectiveAnchors ∧
        filterAccept whitelist blacklist can_fetch force_crawl h = true ∧
        jn forum_url h = k := by
  unfold crawler_search_filter
  rw [mem_keys_crawlerFilterGo]
  simp [keysOf]

/-- C1 counterexample: a candidate anchor whose href is the empty string satisfies
the claimed acceptance predicate (empty whitelist and blacklist, permissive oracle),
yet `_crawler_search_filter` records nothing for it — the Python truthiness test
`if tag_solo['href']` skips it. -/
theorem crawler_filter_claim_counterexample :
    crawler_search_filter (fun _ h => h) "f" [⟨true, some "", "txt", []⟩] [] []
        (fun _ => true) false = []
    ∧ filterAccept [] [] (fun _ => true) false "" = true :=
  ⟨rfl, rfl⟩

/-- C10: the three topic-map accessors are mutually consistent — `get_topics_list`
is the pairwise zip of `get_topics_urls_only` and `get_topics_titles_only`, and all
three have equal length (hence the same order). -/
theorem topics_accessors_consistent (threads_topics : List (String × String)) :
    get_topics_list threads_topics
      = List.zipWith (fun u t => [u, t]) (get_topics_urls_only threads_topics)
          (get_topics_titles_only threads_topics)
    ∧ (get_topics_urls_only threads_topics).length
      = (get_topics_titles_only threads_topics).length
    ∧ (get_topics_list threads_topics).length
      = (get_topics_urls_only threads_topics).length := by
  refine ⟨?_, by simp [get_topics_urls_only, get_topics_titles_only],
    by simp [get_topics_list, get_topics_urls_only]⟩
  induction threads_topics with
  | nil => rfl
  | cons p rest ih =>
      simp only [get_topics_list, get_topics_urls_only, get_topics_titles_only,
        List.map_cons, List.zipWith_cons_cons] at *
      rw [ih]

/-- C3: `check_engine_content` does not merge the `TOPIC_TITLE_CLASS` override —
for the known engine `phpbb` with a non-empty list-valued title override (and a
pagination override, merged as a control), the resulting `topic_title_class` equals
the engine default alone instead of default ++ override, while `pagination` is
default ++ override as the claim states for every category. -/
theorem check_engine_content_drops_title_override :
    (check_engine_content "phpbb"
        { noOverrides with
          topic_title_class := ["h1 >> class :: custom"], pagination := ["pg"] }).map
        (fun p => p.topic_title_class)
      = some ["h2 >>  :: ", "h2 >> class :: topic-title"]
    ∧ (check_engine_content "phpbb"
        { noOverrides with
          topic_title_class := ["h1 >> class :: custom"], pagination := ["pg"] }).map
        (fun p => p.pagination)
      = some (["arrow next", "right-box right", "title :: Dalej", "pag-img"] ++ ["pg"])
    ∧ (["h2 >>  :: ", "h2 >> class :: topic-title"] : List String)
      ≠ ["h2 >>  :: ", "h2 >> class :: topic-title"] ++ ["h1 >> class :: custom"] := by
  refine ⟨rfl, rfl, by decide⟩

/-- A successful pagination-rule attempt never yields the current url: the cycle
guard at forum_engines.py line 340 treats that case as a non-match. -/
theorem tryPaginationRule_ok_ne (url_now : String) (soup : Soup) (rule s : String)
    (h : tryPaginationRule url_now soup rule = some (.ok s)) : s ≠ url_now := by
  unfold tryPaginationRule at h
  cases hb : paginationButton soup rule with
  | none => rw [hb] at h; cases h
  | some b =>
      rw [hb] at h
      dsimp only at h
      cases hh : buttonHref b with
      | error e => rw [hh] at h; simp at h
      | ok np =>
          rw [hh] at h
          dsimp only at h
          by_cases he : np = url_now
          · rw [if_pos he] at h; cases h
          · rw [if_neg he] at h
            injection h with h1
            injection h1 with h2
            exact h2 ▸ he

/-- C4: `_get_next_page_link` never returns a next-page URL equal to the page it
was resolved from, and with an empty pagination rule list it always returns
`False` (no next page). -/
theorem next_link_cycle_safe (url_now : String) (soup : Soup)
    (pagination : List String) :
    (∀ s, get_next_page_link url_now soup pagination = .ok (some s) → s ≠ url_now)
    ∧ get_next_page_link url_now soup [] = .ok none := by
  refine ⟨?_, rfl⟩
  induction pagination with
  | nil => intro s h; cases h
  | cons r rest ih =>
      intro s h
      unfold get_next_page_link at h
      cases htr : tryPaginationRule url_now soup r with
      | none => rw [htr] at h; exact ih s h
      | some e =>
          cases e with
          | ok s' =>
              rw [htr] at h
              injection h with h1
              injection h1 with h2
              exact h2 ▸ tryPaginationRule_ok_ne url_now soup r s' htr
          | error e' => rw [htr] at h; cases h

/-- A concrete page for the C4 witness: the rule `"nxt"` matches a truthy button
whose href is `"p2"`. -/
def c4SoupW : Soup where
  findLiADivClass := fun c => if c = "nxt" then some ⟨true, some "p2", "next", []⟩ else none
  findAllLiADiv := fun _ _ => []
  findAll := fun _ _ _ => []
  find := fun _ _ _ => none

/-- C4 witness: on a concrete page resolving to `"p2"` from `"p1"`, the resolved
link differs from the current url, and the empty rule list returns no next page. -/
theorem next_link_cycle_safe_witness :
    ("p2" : String) ≠ "p1"
    ∧ get_next_page_link "p1" c4SoupW [] = .ok none :=
  ⟨(next_link_cycle_safe "p1" c4SoupW ["nxt"]).1 "p2" rfl,
   (next_link_cycle_safe "p1" c4SoupW []).2⟩

/-- C9 counterexample: with the root denied and force off, startup aborts via
Python's `exit()`, whose exit status is 0 — not the non-zero status the claim
asserts. -/
theorem robots_gate_claim_counterexample :
    check_robots_gate false false = .aborted 0
    ∧ ¬ ∃ c, c ≠ 0 ∧ check_robots_gate false false = .aborted c := by
  refine ⟨rfl, ?_⟩
  rintro ⟨c, hc, h⟩
  have h0 : StartupOutcome.aborted 0 = StartupOutcome.aborted c := h
  injection h0 with h1
  exact hc h1.symm

/-- C9 (amended): startup aborts fatally before any crawling — via `exit()`,
hence with exit status 0 rather than non-zero — exactly when the oracle denies the
root URL and force-crawl is disabled. -/
theorem robots_gate_aborts_iff (can_fetch_root force_crawl : Bool) :
    check_robots_gate can_fetch_root force_crawl = .aborted pythonExitStatus
      ↔ (can_fetch_root = false ∧ force_crawl = false) := by
  cases can_fetch_root <;> cases force_crawl <;>
    simp [check_robots_gate, pythonExitStatus]

/-! ## Claims C5-C8: worker and coordinator behaviour -/

/-- A page on which every BeautifulSoup query comes back empty. -/
def emptySoup : Soup where
  findLiADivClass := fun _ => none
  findAllLiADiv := fun _ _ => []
  findAll := fun _ _ _ => []
  find := fun _ _ _ => none

/-- C5: an exception raised while extracting a topic's text is NOT converted to a
skip outcome — it escapes `_process_item`. Concretely, for an unvisited URL whose
fetch succeeds (small, `ok` response) under an empty `content_class` list (the
`other` engine default), `comment_blocks` is never bound, the loop at scraper.py
line 164 raises NameError inside `_get_item_text`, and the handler at line 268
itself raises UnboundLocalError on the unassigned `topic_title`, which propagates
into the pool. -/
theorem process_item_error_escapes :
    get_item_text (fun _ => FetchOut.resp true 1000 emptySoup) [] [] [] "\n"
        "https://x" (fun _ h => h) 5 "https://x/t1" = .raised
    ∧ process_item [] (fun _ => FetchOut.resp true 1000 emptySoup) [] [] [] "\n"
        "https://x" (fun _ h => h) 5 "https://x/t1" = .raised :=
  ⟨rfl, rfl⟩

/-- C6: for a URL already present in the loaded visited set, `_process_item` does
short-circuit without fetching, but instead of returning empty text with
`skip = "visited"` it raises UnboundLocalError: the branch at scraper.py line 271
reads the local `topic_title`, which is never assigned on that path. -/
theorem process_item_visited_raises :
    process_item ["https://x/t1"] (fun _ => FetchOut.raised) [] [] [] "\n"
        "https://x" (fun _ h => h) 5 "https://x/t1" = .raised :=
  rfl

/-- C7: a 20 MB response makes `_get_item_text` take the bare `return text` at
scraper.py line 145 — a plain string, not the annotated tuple — so the unpacking in
`_process_item` raises ValueError and the handler then raises UnboundLocalError,
which escapes the unit instead of the claimed empty-text-plus-skip-metadata
return (no archive write happens, but neither does any return). -/
theorem process_item_oversize_raises :
    get_item_text (fun _ => FetchOut.resp true 20000000 emptySoup)
        ["div >> class :: post"] [] [] "\n" "https://x" (fun _ h => h) 5
        "https://x/t2" = .single ""
    ∧ process_item [] (fun _ => FetchOut.resp true 20000000 emptySoup)
        ["div >> class :: post"] [] [] "\n" "https://x" (fun _ h => h) 5
        "https://x/t2" = .raised :=
  ⟨rfl, rfl⟩

/-- C8: the coordinator archives a result and records `Visited_flag = 1` exactly
when the text is non-empty and strictly longer than the configured minimum;
otherwise it counts a skip and records `Skip_flag = 1`, except that a unit whose
skip reason is `"visited"` adds no record. -/
theorem coordinator_step_spec (min_len_txt : Nat) (st : CoordState) (txt : String)
    (meta : Meta) :
    ((txt ≠ "" ∧ txt.length > min_len_txt) →
      (coordinatorStep min_len_txt st txt meta).archive
          = st.archive ++ [(txt, coordMeta meta)]
      ∧ (coordinatorStep min_len_txt st txt meta).records
          = st.records ++ [⟨(coordMeta meta).url, (coordMeta meta).topic_title, 1, 0⟩]
      ∧ (coordinatorStep min_len_txt st txt meta).added = st.added + 1)
    ∧ (¬(txt ≠ "" ∧ txt.length > min_len_txt) →
      (coordinatorStep min_len_txt st txt meta).archive = st.archive
      ∧ (coordinatorStep min_len_txt st txt meta).skipped = st.skipped + 1
      ∧ (meta.skip ≠ some "visited" →
          (coordinatorStep min_len_txt st txt meta).records
            = st.records ++ [⟨meta.url, meta.topic_title, 0, 1⟩])
      ∧ (meta.skip = some "visited" →
          (coordinatorStep min_len_txt st txt meta).records = st.records)) := by
  constructor
  · intro hacc
    have hb : (txt != "" && decide (txt.length > min_len_txt)) = true := by
      rcases hacc with ⟨h1, h2⟩
      simp [h1, h2]
    simp [coordinatorStep, hb]
  · intro hrej
    have hb : (txt != "" && decide (txt.length > min_len_txt)) = false := by
      by_contra hc
      rw [Bool.not_eq_false, Bool.and_eq_true] at hc
      exact hrej ⟨by simpa using hc.1, by simpa using hc.2⟩
    refine ⟨by simp [coordinatorStep, hb]; split <;> rfl,
      by simp [coordinatorStep, hb]; split <;> rfl, ?_, ?_⟩
    · intro hskip
      have : (meta.skip != some "visited") = true := by simpa using hskip
      simp [coordinatorStep, hb, this]
    · intro hskip
      have : (meta.skip != some "visited") = false := by simpa using hskip
      simp [coordinatorStep, hb, this]

/-- C8 witness: a 15-character text under threshold 20 fails the acceptance test,
is not archived, and is recorded with `Skip_flag = 1`. -/
theorem coordinator_step_spec_witness :
    ¬(("aaaaaaaaaaaaaaa" : String) ≠ "" ∧ ("aaaaaaaaaaaaaaa" : String).length > 20)
    ∧ (coordinatorStep 20 ⟨0, 0, 0, 0, [], []⟩ "aaaaaaaaaaaaaaa"
        ⟨"u", .str "T", some "error", none⟩).archive = []
    ∧ (coordinatorStep 20 ⟨0, 0, 0, 0, [], []⟩ "aaaaaaaaaaaaaaa"
        ⟨"u", .str "T", some "error", none⟩).records
      = [⟨"u", .str "T", 0, 1⟩] := by
  have hlen : ¬(("aaaaaaaaaaaaaaa" : String) ≠ ""
      ∧ ("aaaaaaaaaaaaaaa" : String).length > 20) := by decide
  have h := (coordinator_step_spec 20 ⟨0, 0, 0, 0, [], []⟩ "aaaaaaaaaaaaaaa"
    ⟨"u", .str "T", some "error", none⟩).2 hlen
  refine ⟨hlen, by simpa using h.1, ?_⟩
  have := h.2.2.1 (by decide)
  simpa using this

/-! ## Claim C2: the discovery frontier -/

/-- Profile for the C2 counterexample: one threads rule and one topics rule, no
filters, no pagination. -/
def c2Profile : EngineProfile where
  threads_class := ["a >> class :: th"]
  topics_class := ["a >> class :: tp"]
  threads_whitelist := []
  threads_blacklist := []
  topics_whitelist := []
  topics_blacklist := []
  pagination := []
  topic_title_class := []
  content_class := []

/-- Crawl configuration for the C2 counterexample. -/
def c2Cfg : CrawlConfig where
  profile := c2Profile
  forum_url := "f"
  can_fetch := fun _ => true
  force_crawl := false
  jn := fun _ h => h

/-- A truthy anchor element with the given href and text. -/
def anchorEl (h t : String) : Element := ⟨true, some h, t, []⟩

/-- The C2 counterexample site: the root `"f"` thread-links to `"A"`; page `"A"`
has a topic link `"T1"` and also a thread link to `"B"`; page `"B"` has a topic
link `"T2"`. -/
def c2Pages : String → Soup := fun u =>
  if u = "f" then
    { emptySoup with findAll := fun t a v =>
        if t = "a" ∧ a = "class" ∧ v = "th" then [anchorEl "A" "threadA"] else [] }
  else if u = "A" then
    { emptySoup with findAll := fun t a v =>
        if t = "a" ∧ a = "class" ∧ v = "tp" then [anchorEl "T1" "t1"]
        else if t = "a" ∧ a = "class" ∧ v = "th" then [anchorEl "B" "threadB"] else [] }
  else if u = "B" then
    { emptySoup with findAll := fun t a v =>
        if t = "a" ∧ a = "class" ∧ v = "tp" then [anchorEl "T2" "t2"] else [] }
  else emptySoup

/-- C2 counterexample: on a finite acyclic site, the crawl terminates but its topic
map is NOT the set of URLs reachable via topic rules from thread-rule-reachable
pages. Page `"A"` yields a topic match, so its thread links are never followed (the
zero-topic fallback at forum_engines.py 276-280 is the only thread harvesting
during topic scanning), and `"T2"` — reachable per the claim through `"B"` — is
missing from the final map. -/
theorem crawl_frontier_claim_counterexample :
    crawl_forum c2Cfg c2Pages 1 4 = .ok (true, [("T1", "t1")])
    ∧ SpecTopicSet c2Cfg c2Pages "T2"
    ∧ "T2" ∉ keysOf [("T1", "t1")] := by
  refine ⟨rfl, ⟨"B", ?_, ?_⟩, by decide⟩
  · refine SpecThreadReach.step "A" "B" (SpecThreadReach.root "A" ?_) ?_
    · show "A" ∈ specThreadLinks c2Cfg c2Pages "f"
      have : specThreadLinks c2Cfg c2Pages "f" = ["A"] := rfl
      rw [this]; exact List.mem_singleton.2 rfl
    · show "B" ∈ specThreadLinks c2Cfg c2Pages "A"
      have : specThreadLinks c2Cfg c2Pages "A" = ["B"] := rfl
      rw [this]; exact List.mem_singleton.2 rfl
  · show "T2" ∈ specTopicLinks c2Cfg c2Pages "B"
    have : specTopicLinks c2Cfg c2Pages "B" = ["T2"] := rfl
    rw [this]; exact List.mem_singleton.2 rfl

/-- Weight of a queued item of the given rank: a bound on the dequeue steps its
expansion can still cause when every expansion enqueues at most `B` items of
strictly smaller rank. -/
def rankWeight (B : Nat) : Nat → Nat
  | 0 => 1
  | n + 1 => 1 + B * rankWeight B n

/-- Total weight of a traversal queue. -/
def queueWeight (B : Nat) (rank : String → Nat) (q : List (String × String)) : Nat :=
  (q.map (fun p => rankWeight B (rank p.1))).sum

theorem rankWeight_le_succ (B n : Nat) : rankWeight B n ≤ rankWeight B (n + 1) := by
  induction n with
  | zero => simp [rankWeight]
  | succ m ih =>
      show 1 + B * rankWeight B m ≤ 1 + B * rankWeight B (m + 1)
      have := Nat.mul_le_mul_left B ih
      omega

theorem rankWeight_mono (B : Nat) {m n : Nat} (h : m ≤ n) :
    rankWeight B m ≤ rankWeight B n := by
  induction h with
  | refl => exact Nat.le_refl _
  | step _ ih => exact Nat.le_trans ih (rankWeight_le_succ B _)

theorem queueWeight_append (B : Nat) (rank : String → Nat)
    (q1 q2 : List (String × String)) :
    queueWeight B rank (q1 ++ q2) = queueWeight B rank q1 + queueWeight B rank q2 := by
  simp [queueWeight]

/-- The weight of the items an expansion enqueues stays strictly below the weight
of the expanded item. -/
theorem enq_weight_succ_le (B : Nat) (rank : String → Nat) (u : String)
    (E : List (String × String))
    (hr : ∀ v t, (v, t) ∈ E → rank v < rank u) (hl : E.length ≤ B) :
    queueWeight B rank E + 1 ≤ rankWeight B (rank u) := by
  cases hu : rank u with
  | zero =>
      have hE : E = [] := by
        cases E with
        | nil => rfl
        | cons p rest =>
            exfalso
            have hlt := hr p.1 p.2 (by simp)
            omega
      subst hE
      simp [queueWeight, rankWeight]
  | succ m =>
      have hbound : ∀ x ∈ E.map (fun p => rankWeight B (rank p.1)),
          x ≤ rankWeight B m := by
        intro x hx
        rcases List.mem_map.1 hx with ⟨p, hp, rfl⟩
        apply rankWeight_mono
        have hlt := hr p.1 p.2 hp
        omega
      have hsum := List.sum_le_card_nsmul (E.map fun p => rankWeight B (rank p.1))
        (rankWeight B m) hbound
      simp only [List.length_map, smul_eq_mul] at hsum
      have h2 : E.length * rankWeight B m ≤ B * rankWeight B m :=
        Nat.mul_le_mul_right _ hl
      show queueWeight B rank E + 1 ≤ 1 + B * rankWeight B m
      unfold queueWeight
      omega

/-- Nothing is reachable from an empty queue. -/
theorem reachFrom_nil (cfg : CrawlConfig) (pages : String → Soup) (fp : Nat)
    (u : String) (h : ReachFrom cfg pages fp [] u) : False := by
  induction h with
  | base url t hmem => cases hmem
  | step u' url t hu hmem ih => exact ih

/-- Reachability from the dequeued queue transfers to the original queue. -/
theorem reachFrom_of_append (cfg : CrawlConfig) (pages : String → Soup) (fp : Nat)
    (u0 t0 : String) (rest : List (String × String)) (v : String)
    (h : ReachFrom cfg pages fp (rest ++ enqueuedItems cfg pages fp u0) v) :
    ReachFrom cfg pages fp ((u0, t0) :: rest) v := by
  induction h with
  | base url t hmem =>
      rcases List.mem_append.1 hmem with hm | hm
      · exact .base url t (List.mem_cons_of_mem _ hm)
      · exact .step u0 url t (.base u0 t0 (List.mem_cons_self _ _)) hm
  | step u url t hu hmem ih => exact .step u url t ih hmem

/-- Reachability from a queue decomposes over its head. -/
theorem reachFrom_cons_elim (cfg : CrawlConfig) (pages : String → Soup) (fp : Nat)
    (u0 t0 : String) (rest : List (String × String)) (v : String)
    (h : ReachFrom cfg pages fp ((u0, t0) :: rest) v) :
    v = u0 ∨ ReachFrom cfg pages fp (rest ++ enqueuedItems cfg pages fp u0) v := by
  induction h with
  | base url t hmem =>
      rcases List.mem_cons.1 hmem with hm | hm
      · left
        exact (Prod.mk.injEq url t u0 t0 ▸ hm).1
      · right
        exact .base url t (List.mem_append_left _ hm)
  | step u url t hu hmem ih =>
      rcases ih with rfl | hr
      · right
        exact .base url t (List.mem_append_right _ hmem)
      · right
        exact .step u url t hr hmem

/-- The queue loop with empty queue stops at once, for any fuel. -/
theorem crawlLoop_nil (cfg : CrawlConfig) (pages : String → Soup) (fp n : Nat)
    (topics : List (String × String)) :
    crawlLoop cfg pages fp n [] topics = .ok (!topics.isEmpty, topics) := by
  cases n <;> rfl

/-- Main loop invariant: with every expansion succeeding and enough fuel for the
queue weight, the loop completes and its final topic keys are exactly the keys
already collected plus those collected from queue-reachable pages. -/
theorem crawlLoop_run (cfg : CrawlConfig) (pages : String → Soup) (fp : Nat)
    (rank : String → Nat) (B : Nat)
    (hok : ∀ u, ∃ r, get_thread_topics cfg pages fp u = .ok r)
    (hrank : ∀ u v t, (v, t) ∈ enqueuedItems cfg pages fp u → rank v < rank u)
    (hB : ∀ u, (enqueuedItems cfg pages fp u).length ≤ B) :
    ∀ n q topics, queueWeight B rank q < n →
    ∃ flag T, crawlLoop cfg pages fp n q topics = .ok (flag, T) ∧
      ∀ k, k ∈ keysOf T ↔ (k ∈ keysOf topics ∨
        ∃ u, ReachFrom cfg pages fp q u ∧ k ∈ keysOf (collectedTopics cfg pages fp u)) := by
  intro n
  induction n with
  | zero => intro q topics hw; omega
  | succ n ih =>
      intro q topics hw
      cases q with
      | nil =>
          refine ⟨!topics.isEmpty, topics, crawlLoop_nil cfg pages fp _ topics, ?_⟩
          intro k
          constructor
          · exact Or.inl
          · rintro (hk | ⟨u, hu, _⟩)
            · exact hk
            · exact absurd hu (fun hh => reachFrom_nil cfg pages fp u hh)
      | cons p rest =>
          obtain ⟨u, t⟩ := p
          obtain ⟨⟨tps, apps⟩, hgt⟩ := hok u
          have hcol : collectedTopics cfg pages fp u = tps := by
            unfold collectedTopics
            rw [hgt]
          have henq : enqueuedItems cfg pages fp u = apps.flatten := by
            unfold enqueuedItems
            rw [hgt]
          have hstep : crawlLoop cfg pages fp (n + 1) ((u, t) :: rest) topics
              = crawlLoop cfg pages fp n (rest ++ apps.flatten) (dictUpdate topics tps) := by
            show (match get_thread_topics cfg pages fp u with
              | .exc => CrawlRes.ok (false, topics)
              | .fuelOut => CrawlRes.fuelOut
              | .ok (tps, apps) =>
                  crawlLoop cfg pages fp n (rest ++ apps.flatten) (dictUpdate topics tps))
              = _
            rw [hgt]
          have hwq : queueWeight B rank ((u, t) :: rest)
              = rankWeight B (rank u) + queueWeight B rank rest := by
            simp [queueWeight]
          have henqw : queueWeight B rank (apps.flatten) + 1 ≤ rankWeight B (rank u) := by
            have h1 := hrank u
            have h2 := hB u
            rw [henq] at h1 h2
            exact enq_weight_succ_le B rank u apps.flatten
              (fun v tv hv => h1 v tv hv) h2
          have hw' : queueWeight B rank (rest ++ apps.flatten) < n := by
            rw [queueWeight_append]
            omega
          obtain ⟨flag, T, hrun, hchar⟩ := ih (rest ++ apps.flatten) (dictUpdate topics tps) hw'
          refine ⟨flag, T, by rw [hstep]; exact hrun, ?_⟩
          intro k
          rw [hchar k, mem_keys_dictUpdate]
          constructor
          · rintro ((hk | hk) | ⟨v, hv, hkv⟩)
            · exact Or.inl hk
            · refine Or.inr ⟨u, .base u t (List.mem_cons_self _ _), ?_⟩
              rw [hcol]
              exact hk
            · rw [← henq] at hv
              exact Or.inr ⟨v, reachFrom_of_append cfg pages fp u t rest v hv, hkv⟩
          · rintro (hk | ⟨v, hv, hkv⟩)
            · exact Or.inl (Or.inl hk)
            · rcases reachFrom_cons_elim cfg pages fp u t rest v hv with rfl | hr
              · rw [hcol] at hkv
                exact Or.inl (Or.inr hkv)
              · rw [henq] at hr
                exact Or.inr ⟨v, hr, hkv⟩

/-- C2 (amended): whenever every page expansion succeeds (no rule or pagination
exception) and the link graph is finite and acyclic — witnessed by a rank that
strictly decreases along the enqueued (zero-topic fallback) links, with expansion
fan-out bounded by `B` — the traversal queue empties after finitely many dequeue
steps, and at termination the topic map contains exactly the URLs collected (via
topic rules, pagination included) from the expanded pages: the root page's thread
links closed under the links harvested by the zero-topic fallback. Thread links of
pages with a non-empty topic-rule match are NOT followed. -/
theorem crawl_frontier_amended (cfg : CrawlConfig) (pages : String → Soup)
    (fuelPag : Nat) (rank : String → Nat) (B : Nat)
    (hok : ∀ u, ∃ r, get_thread_topics cfg pages fuelPag u = .ok r)
    (hrank : ∀ u v t, (v, t) ∈ enqueuedItems cfg pages fuelPag u → rank v < rank u)
    (hB : ∀ u, (enqueuedItems cfg pages fuelPag u).length ≤ B)
    (hroot : ∃ d, get_forum_threads_extract cfg (pages cfg.forum_url) = .ok d) :
    ∃ fuel flag topics, crawl_forum cfg pages fuelPag fuel = .ok (flag, topics) ∧
      ∀ k, k ∈ keysOf topics ↔
        ∃ u, Expanded cfg pages fuelPag u ∧
          k ∈ keysOf (collectedTopics cfg pages fuelPag u) := by
  obtain ⟨d, hd⟩ := hroot
  have hrootT : rootThreads cfg pages = d := by
    unfold rootThreads
    rw [hd]
  obtain ⟨flag, T, hrun, hchar⟩ := crawlLoop_run cfg pages fuelPag rank B hok hrank hB
    (queueWeight B rank d + 1) d [] (Nat.lt_succ_self _)
  refine ⟨queueWeight B rank d + 1, flag, T, ?_, ?_⟩
  · show (match get_forum_threads_extract cfg (pages cfg.forum_url) with
      | .error _ => CrawlRes.ok (false, [])
      | .ok rootDict =>
          crawlLoop cfg pages fuelPag (queueWeight B rank d + 1) rootDict []) = _
    rw [hd]
    exact hrun
  · intro k
    rw [hchar k]
    unfold Expanded
    rw [hrootT]
    simp [keysOf]

/-- Witness configuration for the amended C2 theorem: the `other` engine (all rule
lists empty) on a site of empty pages. -/
def c2WCfg : CrawlConfig where
  profile := UnsupportedCrawler
  forum_url := "w"
  can_fetch := fun _ => true
  force_crawl := false
  jn := fun _ h => h

/-- The witness site: every url parses to the empty page. -/
def c2WPages : String → Soup := fun _ => emptySoup

/-- C2 witness: on the concrete witness site every expansion succeeds, every rank
hypothesis holds with the constant rank and fan-out bound 0, and the amended
theorem applies, so the crawl completes with the characterized topic map. -/
theorem crawl_frontier_amended_witness :
    (∀ u, ∃ r, get_thread_topics c2WCfg c2WPages 1 u = .ok r)
    ∧ (∀ u, (enqueuedItems c2WCfg c2WPages 1 u).length ≤ 0)
    ∧ (∃ fuel flag topics, crawl_forum c2WCfg c2WPages 1 fuel = .ok (flag, topics) ∧
        ∀ k, k ∈ keysOf topics ↔
          ∃ u, Expanded c2WCfg c2WPages 1 u ∧
            k ∈ keysOf (collectedTopics c2WCfg c2WPages 1 u)) := by
  have hok : ∀ u, ∃ r, get_thread_topics c2WCfg c2WPages 1 u = .ok r :=
    fun u => ⟨([], []), rfl⟩
  have henq : ∀ u, enqueuedItems c2WCfg c2WPages 1 u = [] := fun u => rfl
  have hrank : ∀ u v t, (v, t) ∈ enqueuedItems c2WCfg c2WPages 1 u →
      (fun _ => 0 : String → Nat) v < (fun _ => 0 : String → Nat) u := by
    intro u v t hv
    rw [henq u] at hv
    cases hv
  have hB : ∀ u, (enqueuedItems c2WCfg c2WPages 1 u).length ≤ 0 := by
    intro u
    rw [henq u]
    exact Nat.le_refl _
  exact ⟨hok, hB,
    crawl_frontier_amended c2WCfg c2WPages 1 (fun _ => 0) 0 hok hrank hB ⟨[], rfl⟩⟩

end ForumTools
